import Mathlib

/-
Shallow embedding of the online furniture store core
(inventory.py, shopping_cart.py, user_order_dic.py and the checkout
route of api.py / main.py).

Modelling conventions:
- Python dictionaries are association lists (insertion order, unique keys)
  except the inventory quantity map, which is only read and written
  pointwise and is modelled as a function Nat -> Option Int.
- Python int is Int, Python float prices are rationals.
- Python code mutates state and may then raise; each operation therefore
  returns the post state together with an optional exception value
  (Option PyErr or Except PyErr), never rolling the state back.
- str.lower is a per-character lowering, as in Python for ASCII data.
-/

/-! Association lists with Python dict semantics. -/

/-- Lookup of the first binding of a key, as in a Python dict read. -/
def alGet {κ β : Type} [DecidableEq κ] : List (κ × β) → κ → Option β
  | [], _ => none
  | (k, v) :: rest, x => if k = x then some v else alGet rest x

/-- Write of a key: replaces the binding in place when the key is present,
appends a new binding otherwise, as a Python dict assignment does. -/
def alSet {κ β : Type} [DecidableEq κ] : List (κ × β) → κ → β → List (κ × β)
  | [], k, v => [(k, v)]
  | (k', v') :: rest, k, v =>
    if k' = k then (k, v) :: rest else (k', v') :: alSet rest k v

/-- Deletion of a key, as the Python del statement on a dict. -/
def alDel {κ β : Type} [DecidableEq κ] : List (κ × β) → κ → List (κ × β)
  | [], _ => []
  | (k', v') :: rest, k => if k' = k then rest else (k', v') :: alDel rest k

/-! Character level helpers for the Python string operations used by
Inventory.search_items: str.lower and the substring operator in. -/

/-- Lowercased character list of a string (Python str.lower). -/
def lowerChars (s : String) : List Char := s.toList.map Char.toLower

/-- Bool test that the first list is an initial segment of the second. -/
def startsWithChars : List Char → List Char → Bool
  | [], _ => true
  | _ :: _, [] => false
  | a :: as, b :: bs => a == b && startsWithChars as bs

/-- Bool test that needle occurs contiguously inside the second list
(Python substring operator: needle in hay). -/
def hasSubChars (needle : List Char) : List Char → Bool
  | [] => needle.isEmpty
  | c :: rest => startsWithChars needle (c :: rest) || hasSubChars needle rest

/-! StoreItem hierarchy (store_item.py). The subtype only matters through
its class name, used by search_items as the category. -/

inductive ItemType
  | table
  | bed
  | closet
  | chair
  | sofa
  deriving DecidableEq, Repr

/-- Python class name of each StoreItem subtype. -/
def className : ItemType → String
  | .table => "Table"
  | .bed => "Bed"
  | .closet => "Closet"
  | .chair => "Chair"
  | .sofa => "Sofa"

/-- Common StoreItem fields; the subtype-specific payload fields
(pillow_count and similar) play no role in the verified operations. -/
structure StoreItem where
  item_id : Nat
  title : String
  price : ℚ
  height : Int
  width : Int
  weight : ℚ
  description : String
  itype : ItemType
  deriving DecidableEq, Repr

/-! Inventory (inventory.py). -/

/-- Inventory state: the quantity map _items and the catalog reference
_catalog (a dict id to StoreItem; the source stores Optional and reads it
through get_catalog which yields an empty dict for a missing catalog,
so the empty list stands for both). -/
structure Inventory where
  items : Nat → Option Int
  catalog : List (Nat × StoreItem)

namespace Inventory

/-- Inventory.get_catalog: a shallow copy of the catalog. -/
def get_catalog (inv : Inventory) : List (Nat × StoreItem) := inv.catalog

/-- Inventory.set_catalog. -/
def set_catalog (inv : Inventory) (catalog : List (Nat × StoreItem)) : Inventory :=
  { inv with catalog := catalog }

/-- Inventory.add_item: increments an existing entry, creates it otherwise. -/
def add_item (inv : Inventory) (item_id : Nat) (quantity : Int) : Inventory :=
  match inv.items item_id with
  | some q0 =>
    { inv with items := fun x => if x = item_id then some (q0 + quantity) else inv.items x }
  | none =>
    { inv with items := fun x => if x = item_id then some quantity else inv.items x }

/-- Inventory.remove_item: deletes the entry when present. -/
def remove_item (inv : Inventory) (item_id : Nat) : Inventory :=
  if (inv.items item_id).isSome then
    { inv with items := fun x => if x = item_id then none else inv.items x }
  else inv

/-- Inventory.update_quantity: absolute overwrite, but only when the entry
already exists; a no-op on an absent item_id. -/
def update_quantity (inv : Inventory) (item_id : Nat) (quantity : Int) : Inventory :=
  if (inv.items item_id).isSome then
    { inv with items := fun x => if x = item_id then some quantity else inv.items x }
  else inv

/-- Inventory.get_quantity: stock of an item, 0 when the id is unknown. -/
def get_quantity (inv : Inventory) (item_id : Nat) : Int :=
  (inv.items item_id).getD 0

end Inventory

/-- Python truthiness of an Optional[str] argument: None and the empty
string are falsy. -/
def truthyStr : Option String → Bool
  | none => false
  | some s => !s.isEmpty

/-- Python truthiness of an Optional[float] argument: None and 0 are falsy. -/
def truthyRat : Option ℚ → Bool
  | none => false
  | some p => decide (p ≠ 0)

namespace Inventory

/-- Filter body of Inventory.search_items: one conjunct per continue in the
source loop, each guarded by the Python truthiness of the argument. -/
def keepsItem (inv : Inventory) (name category : Option String)
    (min_price max_price : Option ℚ) (item : StoreItem) : Bool :=
  !(inv.items item.item_id).isNone
  && !(truthyStr name &&
        !hasSubChars (lowerChars (name.getD "")) (lowerChars item.title))
  && !(truthyStr category &&
        !(lowerChars (category.getD "") == lowerChars (className item.itype)))
  && !(truthyRat min_price && decide (item.price < min_price.getD 0))
  && !(truthyRat max_price && decide (max_price.getD 0 < item.price))

/-- Inventory.search_items: walks the catalog values in order and keeps the
items passing every filter. -/
def search_items (inv : Inventory) (name category : Option String)
    (min_price max_price : Option ℚ) : List StoreItem :=
  (inv.catalog.map Prod.snd).filter (keepsItem inv name category min_price max_price)

end Inventory

/-! ShoppingCart (shopping_cart.py). -/

/-- Exceptions that the verified operations can raise. keyError models the
Python KeyError of a failed dict subscript; the remaining constructors are
the three HTTPException raise sites of the checkout route. -/
inductive PyErr
  | keyError (key : Nat)
  | userNotFound
  | emptyCart
  | insufficientStock (item_id : Nat)
  deriving DecidableEq, Repr

/-- Cart state: _cart_items and the running _total_price. -/
structure ShoppingCart where
  cart_items : List (Nat × Int)
  total_price : ℚ
  deriving DecidableEq, Repr

/-- Result of a cart operation: the post state and an optional exception.
Python exceptions do not undo mutations already performed, so the cart
carried in the error case is the partially mutated one. -/
structure CartResult where
  cart : ShoppingCart
  exn : Option PyErr
  deriving DecidableEq, Repr

namespace ShoppingCart

/-- ShoppingCart.get_item_by_id: bare dict subscript into the catalog,
raising KeyError on a missing id. -/
def get_item_by_id (item_id : Nat) (catalog : List (Nat × StoreItem)) :
    Except PyErr StoreItem :=
  match alGet catalog item_id with
  | some it => .ok it
  | none => .error (.keyError item_id)

/-- ShoppingCart.add_furniture. Order of effects follows the source:
inventory membership check, stock check (branching on whether the item is
already in the cart), cart entry write, catalog lookup (line 69, may raise
KeyError after the entry write), total price update. -/
def add_furniture (inv : Inventory) (c : ShoppingCart) (item_id : Nat)
    (quantity : Int) : CartResult :=
  if (inv.items item_id).isNone then ⟨c, none⟩
  else
    let available_quantity := inv.get_quantity item_id
    let stockOk : Bool :=
      match alGet c.cart_items item_id with
      | some inCart => !decide (available_quantity < quantity + inCart)
      | none => !decide (available_quantity < quantity)
    if !stockOk then ⟨c, none⟩
    else
      let items' := alSet c.cart_items item_id
        ((alGet c.cart_items item_id).getD 0 + quantity)
      match get_item_by_id item_id inv.get_catalog with
      | .error e => ⟨{ c with cart_items := items' }, some e⟩
      | .ok store_item =>
        ⟨⟨items', c.total_price + store_item.price * (quantity : ℚ)⟩, none⟩

/-- ShoppingCart.remove_furniture. The catalog lookup (line 100) happens
before any cart mutation; on success the entry is decremented and deleted
when it reaches exactly zero, and the total price is decreased. -/
def remove_furniture (inv : Inventory) (c : ShoppingCart) (item_id : Nat)
    (quantity : Int) : CartResult :=
  match alGet c.cart_items item_id with
  | none => ⟨c, none⟩
  | some inCart =>
    if inCart < quantity then ⟨c, none⟩
    else
      match get_item_by_id item_id inv.get_catalog with
      | .error e => ⟨c, some e⟩
      | .ok store_item =>
        let base := alSet c.cart_items item_id (inCart - quantity)
        let items' := if inCart - quantity = 0 then alDel base item_id else base
        ⟨⟨items', c.total_price - store_item.price * (quantity : ℚ)⟩, none⟩

/-- ShoppingCart.apply_discount: rejects percentages outside (0, 100] by
printing and returning (no exception), otherwise subtracts
percentage/100 of the current total. -/
def apply_discount (c : ShoppingCart) (discount_percentage : ℚ) : CartResult :=
  if discount_percentage ≤ 0 ∨ 100 < discount_percentage then ⟨c, none⟩
  else
    let discount_amount := discount_percentage / 100 * c.total_price
    ⟨⟨c.cart_items, c.total_price - discount_amount⟩, none⟩

end ShoppingCart

/-! Orders (order.py) and the user order dictionary (user_order_dic.py). -/

/-- Order snapshot. The source stores a reference to the User object; user
objects are keyed by their unique username wherever the verified code
touches them (user_db and _user_orders), so the reference is modelled by
the username. -/
structure Order where
  username : String
  order_items : List (StoreItem × Int)
  total_price : ℚ
  status : String
  deriving DecidableEq, Repr

/-- Combined state of a UserOrderDictionary and of the order histories of
the user objects it mutates through order.user.add_order: user_orders is
the dict username to list of orders, order_hist gives the _order_hist list
of the (unique) user object with a given username (empty at creation). -/
structure UODState where
  user_orders : List (String × List Order)
  order_hist : String → List Order

namespace UODState

/-- UserOrderDictionary.update: creates the dict entry when missing,
appends the order to it, then also appends to the user object history. -/
def update (s : UODState) (o : Order) : UODState :=
  let cur := (alGet s.user_orders o.username).getD []
  { user_orders := alSet s.user_orders o.username (cur ++ [o]),
    order_hist := fun u =>
      if u = o.username then s.order_hist u ++ [o] else s.order_hist u }

/-- UserOrderDictionary.get_orders_for_user: a copy of the list under the
username of the user, empty when absent. Pure read, no state change. -/
def get_orders_for_user (s : UODState) (username : String) : List Order :=
  (alGet s.user_orders username).getD []

/-- UserOrderDictionary.clear_user_orders: resets the dict entry to the
empty list. The user object history is not touched. -/
def clear_user_orders (s : UODState) (username : String) : UODState :=
  { s with user_orders := alSet s.user_orders username [] }

end UODState

/-- The three UserOrderDictionary operations as events of a run. -/
inductive UODOp
  | updateOp (o : Order)
  | getOp (username : String)
  | clearOp (username : String)
  deriving DecidableEq, Repr

/-- State effect of one UserOrderDictionary operation; get_orders_for_user
returns a copy and leaves the state unchanged. -/
def applyUODOp (s : UODState) : UODOp → UODState
  | .updateOp o => s.update o
  | .getOp _ => s
  | .clearOp u => s.clear_user_orders u

/-- Fresh UserOrderDictionary next to user objects with empty histories. -/
def uodInit : UODState := ⟨[], fun _ => []⟩

/-- Run of a sequence of UserOrderDictionary operations from the fresh state. -/
def runUODOps (ops : List UODOp) : UODState := ops.foldl applyUODOp uodInit

/-! Checkout route (api.py checkout; main.py checkout_api is the same
logic). Global state touched by the route. -/

/-- Module level state of api.py used by the checkout route. user_db maps
usernames to user objects; only membership and the username itself are
consumed, so it is the list of registered usernames. -/
structure ApiState where
  inventory : Inventory
  shopping_cart : ShoppingCart
  user_db : List String
  orders : List Order
  uod : UODState

/-- Per item body of the checkout loop, in source order: catalog subscript
(KeyError when absent), append to order_items, stock check (HTTPException
400 when short), deduction via update_quantity. The exception cases return
the inventory as already mutated by the earlier iterations. -/
def checkoutLoop (catalog : List (Nat × StoreItem)) :
    List (Nat × Int) → Inventory → List (StoreItem × Int) →
      Inventory × Except PyErr (List (StoreItem × Int))
  | [], inv, acc => (inv, Except.ok acc)
  | (item_id, quantity) :: rest, inv, acc =>
    match alGet catalog item_id with
    | none => (inv, Except.error (.keyError item_id))
    | some it =>
      let acc' := acc ++ [(it, quantity)]
      let available_qty := inv.get_quantity item_id
      if available_qty < quantity then
        (inv, Except.error (.insufficientStock item_id))
      else
        checkoutLoop catalog rest
          (inv.update_quantity item_id (available_qty - quantity)) acc'

/-- The checkout route of api.py: user lookup, empty cart check, the
validate-and-deduct loop, then order creation, order registration (orders
list and UserOrderDictionary.update) and cart reset. An exception leaves
every component except the partially deducted inventory as it was. -/
def checkout (s : ApiState) (username : String) : ApiState × Except PyErr Order :=
  if username ∈ s.user_db then
    if s.shopping_cart.cart_items.isEmpty then (s, Except.error .emptyCart)
    else
      let catalog_copy := s.inventory.get_catalog
      let total_price := s.shopping_cart.total_price
      match checkoutLoop catalog_copy s.shopping_cart.cart_items s.inventory [] with
      | (inv', Except.error e) => ({ s with inventory := inv' }, Except.error e)
      | (inv', Except.ok order_items) =>
        let new_order : Order := ⟨username, order_items, total_price, "pending"⟩
        ({ s with
            inventory := inv',
            shopping_cart := ⟨[], 0⟩,
            orders := s.orders ++ [new_order],
            uod := s.uod.update new_order }, Except.ok new_order)
  else (s, Except.error .userNotFound)

/-! Cart operation sequences, for the running total invariant. -/

/-- One cart mutation of a run. -/
inductive CartOp
  | addOp (item_id : Nat) (q : Int)
  | removeOp (item_id : Nat) (q : Int)
  deriving DecidableEq, Repr

/-- State effect of one cart operation (the post state is kept even when
the operation raises, as in Python). -/
def applyCartOp (inv : Inventory) (c : ShoppingCart) : CartOp → ShoppingCart
  | .addOp i q => (c.add_furniture inv i q).cart
  | .removeOp i q => (c.remove_furniture inv i q).cart

/-- Run of a sequence of cart operations from a fresh cart. -/
def runCartOps (inv : Inventory) (ops : List CartOp) : ShoppingCart :=
  ops.foldl (applyCartOp inv) ⟨[], 0⟩

/-- Catalog price of an id, 0 when the id has no catalog entry. -/
def priceD (catalog : List (Nat × StoreItem)) (item_id : Nat) : ℚ :=
  match alGet catalog item_id with
  | some it => it.price
  | none => 0

/-- Sum over cart entries of catalog price times cart quantity. -/
def entrySum (catalog : List (Nat × StoreItem)) : List (Nat × Int) → ℚ
  | [] => 0
  | (k, v) :: rest => priceD catalog k * (v : ℚ) + entrySum catalog rest

/-! Search filter written from the words of the specification, for
comparison with Inventory.search_items. -/

/-- Search filter exactly as the specification words it: an item is kept
when its id is a key of the quantity map, its title contains the given
name case-insensitively whenever a name is given, its subtype name equals
the given category case-insensitively whenever a category is given, and
its price lies inclusively within whichever bounds are given. -/
def matchesClaim (inv : Inventory) (name category : Option String)
    (min_price max_price : Option ℚ) (item : StoreItem) : Bool :=
  (inv.items item.item_id).isSome
  && (match name with
      | none => true
      | some s => hasSubChars (lowerChars s) (lowerChars item.title))
  && (match category with
      | none => true
      | some s => lowerChars s == lowerChars (className item.itype))
  && (match min_price with
      | none => true
      | some p => decide (p ≤ item.price))
  && (match max_price with
      | none => true
      | some p => decide (item.price ≤ p))

/-- Catalog filtered by the claim filter, in catalog order. -/
def searchClaim (inv : Inventory) (name category : Option String)
    (min_price max_price : Option ℚ) : List StoreItem :=
  (inv.catalog.map Prod.snd).filter (matchesClaim inv name category min_price max_price)

/-- Search filter as amended: identical to the claim filter except that a
filter argument only applies when it is truthy in the Python sense, so an
empty string name or category and a zero price bound disable their
respective filters. -/
def matchesAmended (inv : Inventory) (name category : Option String)
    (min_price max_price : Option ℚ) (item : StoreItem) : Bool :=
  (inv.items item.item_id).isSome
  && (match name with
      | none => true
      | some s => s.isEmpty || hasSubChars (lowerChars s) (lowerChars item.title))
  && (match category with
      | none => true
      | some s => s.isEmpty || (lowerChars s == lowerChars (className item.itype)))
  && (match min_price with
      | none => true
      | some p => decide (p = 0) || decide (p ≤ item.price))
  && (match max_price with
      | none => true
      | some p => decide (p = 0) || decide (item.price ≤ p))

/-- Catalog filtered by the amended filter, in catalog order. -/
def searchAmended (inv : Inventory) (name category : Option String)
    (min_price max_price : Option ℚ) : List StoreItem :=
  (inv.catalog.map Prod.snd).filter (matchesAmended inv name category min_price max_price)

/-! Concrete fixtures for the closed instances of the theorems. -/

/-- Catalog item shaped like the sample Table of api.py. -/
def itemTable : StoreItem := ⟨1, "Modern Table", 150, 30, 50, 20, "A modern table.", .table⟩

/-- Catalog item shaped like the sample Bed of api.py. -/
def itemBed : StoreItem := ⟨2, "Queen Bed", 300, 40, 60, 50, "A comfortable queen bed.", .bed⟩

/-- Inventory holding item 1 in stock with a one item catalog. -/
def invSearchFix : Inventory := ⟨fun n => if n = 1 then some 5 else none, [(1, itemTable)]⟩

/-- Inventory holding item 1 in stock but with an empty catalog. -/
def invNoCatFix : Inventory := ⟨fun n => if n = 1 then some 10 else none, []⟩

/-- Inventory with no entries at all. -/
def invEmptyFix : Inventory := ⟨fun _ => none, []⟩

/-- Inventory stocking items 1 and 2 with their catalog entries. -/
def invTwoFix : Inventory :=
  ⟨fun n => if n = 1 then some 10 else if n = 2 then some 3 else none,
    [(1, itemTable), (2, itemBed)]⟩

/-- Fresh empty cart. -/
def cartEmptyFix : ShoppingCart := ⟨[], 0⟩

/-- Cart holding two units of item 1 at the matching total. -/
def cartPricedFix : ShoppingCart := ⟨[(1, 2)], 300⟩

/-- Checkout state whose cart asks for five units of item 2 while only
three are stocked, after two units of item 1. -/
def apiFailFix : ApiState := ⟨invTwoFix, ⟨[(1, 2), (2, 5)], 1800⟩, ["alice"], [], uodInit⟩

/-- Checkout state whose cart is fully coverable by the stock. -/
def apiOkFix : ApiState := ⟨invTwoFix, ⟨[(1, 2), (2, 1)], 600⟩, ["alice"], [], uodInit⟩

/-- Checkout state with a registered user and an empty cart. -/
def apiEmptyFix : ApiState := ⟨invTwoFix, cartEmptyFix, ["alice"], [], uodInit⟩

/-- Sample order of the user alice. -/
def orderFixA : Order := ⟨"alice", [], 100, "pending"⟩

/-- Second sample order of the user alice. -/
def orderFixB : Order := ⟨"alice", [(itemTable, 1)], 150, "pending"⟩

/-- Cart well-formedness carried through runs of cart operations: every
cart key is stocked in the inventory, and the running total equals the sum
over entries of catalog price times quantity. -/
def CartOk (inv : Inventory) (c : ShoppingCart) : Prop :=
  (∀ k, (alGet c.cart_items k).isSome = true → (inv.items k).isSome = true) ∧
  c.total_price = entrySum inv.catalog c.cart_items

/-! Helper lemmas on association lists. -/

theorem alGet_alSet_self {κ β : Type} [DecidableEq κ] (d : List (κ × β)) (k : κ) (v : β) :
    alGet (alSet d k v) k = some v := by
  induction d with
  | nil => simp [alGet, alSet]
  | cons hd tl ih =>
    obtain ⟨k', v'⟩ := hd
    by_cases h : k' = k
    · simp [alSet, h, alGet]
    · simp [alSet, h, alGet, ih]

theorem alGet_alSet_ne {κ β : Type} [DecidableEq κ] (d : List (κ × β)) (k x : κ) (v : β)
    (h : x ≠ k) : alGet (alSet d k v) x = alGet d x := by
  induction d with
  | nil => simp [alGet, alSet, Ne.symm h]
  | cons hd tl ih =>
    obtain ⟨k', v'⟩ := hd
    by_cases hk : k' = k
    · subst hk
      simp [alSet, alGet, Ne.symm h]
    · simp [alSet, hk, alGet, ih]

theorem alGet_alDel_ne {κ β : Type} [DecidableEq κ] (d : List (κ × β)) (k x : κ)
    (h : x ≠ k) : alGet (alDel d k) x = alGet d x := by
  induction d with
  | nil => simp [alDel]
  | cons hd tl ih =>
    obtain ⟨k', v'⟩ := hd
    by_cases hk : k' = k
    · subst hk
      simp [alDel, alGet, Ne.symm h]
    · simp [alDel, hk, alGet, ih]

theorem isSome_of_alSet {κ β : Type} [DecidableEq κ] (d : List (κ × β)) (k x : κ) (v : β)
    (h : (alGet (alSet d k v) x).isSome = true) : x = k ∨ (alGet d x).isSome = true := by
  by_cases hx : x = k
  · exact Or.inl hx
  · rw [alGet_alSet_ne d k x v hx] at h
    exact Or.inr h

theorem isSome_of_alDel {κ β : Type} [DecidableEq κ] (d : List (κ × β)) (k x : κ)
    (h : (alGet (alDel d k) x).isSome = true) : (alGet d x).isSome = true := by
  induction d with
  | nil => simpa [alDel] using h
  | cons hd tl ih =>
    obtain ⟨k', v'⟩ := hd
    by_cases hk : k' = k
    · subst hk
      simp only [alDel, if_pos rfl] at h
      by_cases hx : k' = x
      · simp [alGet, hx]
      · simpa [alGet, hx] using h
    · simp only [alDel, if_neg hk] at h
      by_cases hx : k' = x
      · simp [alGet, hx]
      · simp only [alGet, if_neg hx] at h ⊢
        exact ih h

theorem entrySum_alSet (cat : List (Nat × StoreItem)) (d : List (Nat × Int)) (k : Nat) (v : Int) :
    entrySum cat (alSet d k v) =
      entrySum cat d - priceD cat k * (((alGet d k).getD 0 : Int) : ℚ)
        + priceD cat k * (v : ℚ) := by
  induction d with
  | nil =>
    simp [alSet, entrySum, alGet]
  | cons hd tl ih =>
    obtain ⟨k', v'⟩ := hd
    by_cases h : k' = k
    · subst h
      simp only [alSet, if_pos rfl, entrySum, alGet, Option.getD_some, ite_true, if_pos rfl]
      ring
    · simp only [alSet, if_neg h, entrySum, alGet, if_neg h, ih]
      ring

theorem entrySum_alDel (cat : List (Nat × StoreItem)) (d : List (Nat × Int)) (k : Nat)
    (cur : Int) (h : alGet d k = some cur) :
    entrySum cat (alDel d k) = entrySum cat d - priceD cat k * (cur : ℚ) := by
  induction d with
  | nil => simp [alGet] at h
  | cons hd tl ih =>
    obtain ⟨k', v'⟩ := hd
    by_cases hk : k' = k
    · subst hk
      simp only [alGet, if_pos rfl, ite_true, Option.some.injEq] at h
      subst h
      simp only [alDel, if_pos rfl, ite_true, entrySum]
      ring
    · simp only [alGet, if_neg hk] at h
      simp only [alDel, if_neg hk, entrySum, ih h]
      ring

/-! Helper lemmas on the inventory operations. -/

theorem get_quantity_update_self (inv : Inventory) (i : Nat) (v : Int)
    (h : (inv.items i).isSome = true) :
    (inv.update_quantity i v).get_quantity i = v := by
  simp [Inventory.update_quantity, h, Inventory.get_quantity]

theorem get_quantity_update_ne (inv : Inventory) (i : Nat) (v : Int) (j : Nat)
    (h : j ≠ i) : (inv.update_quantity i v).get_quantity j = inv.get_quantity j := by
  unfold Inventory.update_quantity Inventory.get_quantity
  split
  · simp [h]
  · rfl

theorem items_update_ne (inv : Inventory) (i : Nat) (v : Int) (j : Nat)
    (h : j ≠ i) : (inv.update_quantity i v).items j = inv.items j := by
  unfold Inventory.update_quantity
  split
  · simp [h]
  · rfl

theorem catalog_update_quantity (inv : Inventory) (i : Nat) (v : Int) :
    (inv.update_quantity i v).catalog = inv.catalog := by
  unfold Inventory.update_quantity
  split <;> rfl

theorem items_isSome_of_pos (inv : Inventory) (i : Nat) (q : Int)
    (hq : 0 < q) (hle : q ≤ inv.get_quantity i) : (inv.items i).isSome = true := by
  cases hii : inv.items i with
  | none =>
    exfalso
    rw [Inventory.get_quantity, hii] at hle
    simp at hle
    omega
  | some _ => rfl

/-! Case analysis of ShoppingCart.add_furniture: the three observable
behaviours of the source, in one equation. -/

theorem add_furniture_eq (inv : Inventory) (c : ShoppingCart) (i : Nat) (q : Int) :
    c.add_furniture inv i q =
      if (inv.items i).isSome = true ∧ q + (alGet c.cart_items i).getD 0 ≤ inv.get_quantity i then
        match alGet inv.catalog i with
        | some it =>
          ⟨⟨alSet c.cart_items i ((alGet c.cart_items i).getD 0 + q),
            c.total_price + it.price * (q : ℚ)⟩, none⟩
        | none =>
          ⟨{ c with cart_items := alSet c.cart_items i ((alGet c.cart_items i).getD 0 + q) },
            some (.keyError i)⟩
      else ⟨c, none⟩ := by
  cases hii : inv.items i with
  | none => simp [ShoppingCart.add_furniture, hii]
  | some qi =>
    cases hcc : alGet c.cart_items i with
    | none =>
      by_cases hlt : qi < q
      · simp [ShoppingCart.add_furniture, ShoppingCart.get_item_by_id, Inventory.get_catalog,
          Inventory.get_quantity, hii, hcc, hlt, not_le.mpr hlt]
      · cases hcat : alGet inv.catalog i with
        | none =>
          simp [ShoppingCart.add_furniture, ShoppingCart.get_item_by_id, Inventory.get_catalog,
            Inventory.get_quantity, hii, hcc, hcat, hlt, not_lt.mp hlt]
        | some it =>
          simp [ShoppingCart.add_furniture, ShoppingCart.get_item_by_id, Inventory.get_catalog,
            Inventory.get_quantity, hii, hcc, hcat, hlt, not_lt.mp hlt]
    | some inCart =>
      by_cases hlt : qi < q + inCart
      · simp [ShoppingCart.add_furniture, ShoppingCart.get_item_by_id, Inventory.get_catalog,
          Inventory.get_quantity, hii, hcc, hlt, not_le.mpr hlt]
      · cases hcat : alGet inv.catalog i with
        | none =>
          simp [ShoppingCart.add_furniture, ShoppingCart.get_item_by_id, Inventory.get_catalog,
            Inventory.get_quantity, hii, hcc, hcat, hlt, not_lt.mp hlt]
        | some it =>
          simp [ShoppingCart.add_furniture, ShoppingCart.get_item_by_id, Inventory.get_catalog,
            Inventory.get_quantity, hii, hcc, hcat, hlt, not_lt.mp hlt]

/-! Preservation of the cart well-formedness by the two cart mutations,
under the assumption that every stocked item has a catalog entry. -/

theorem cartOk_add (inv : Inventory) (c : ShoppingCart) (i : Nat) (q : Int)
    (hcat : ∀ k, (inv.items k).isSome = true → (alGet inv.catalog k).isSome = true)
    (h : CartOk inv c) : CartOk inv (c.add_furniture inv i q).cart := by
  obtain ⟨hkeys, htot⟩ := h
  rw [add_furniture_eq]
  by_cases hcond :
      (inv.items i).isSome = true ∧ q + (alGet c.cart_items i).getD 0 ≤ inv.get_quantity i
  · rw [if_pos hcond]
    obtain ⟨hii, _⟩ := hcond
    obtain ⟨it, hit⟩ := Option.isSome_iff_exists.mp (hcat i hii)
    simp only [hit]
    constructor
    · intro k hk
      rcases isSome_of_alSet _ _ _ _ hk with rfl | hk2
      · exact hii
      · exact hkeys k hk2
    · show c.total_price + it.price * (q : ℚ) =
        entrySum inv.catalog (alSet c.cart_items i ((alGet c.cart_items i).getD 0 + q))
      rw [entrySum_alSet, htot]
      have hp : priceD inv.catalog i = it.price := by simp [priceD, hit]
      rw [hp]
      push_cast
      ring
  · rw [if_neg hcond]
    exact ⟨hkeys, htot⟩

theorem cartOk_remove (inv : Inventory) (c : ShoppingCart) (i : Nat) (q : Int)
    (hcat : ∀ k, (inv.items k).isSome = true → (alGet inv.catalog k).isSome = true)
    (h : CartOk inv c) : CartOk inv (c.remove_furniture inv i q).cart := by
  obtain ⟨hkeys, htot⟩ := h
  cases hcc : alGet c.cart_items i with
  | none =>
    simp only [ShoppingCart.remove_furniture, hcc]
    exact ⟨hkeys, htot⟩
  | some inCart =>
    simp only [ShoppingCart.remove_furniture, hcc]
    by_cases hq : inCart < q
    · rw [if_pos hq]
      exact ⟨hkeys, htot⟩
    · rw [if_neg hq]
      have hsome : (inv.items i).isSome = true := hkeys i (by simp [hcc])
      obtain ⟨it, hit⟩ := Option.isSome_iff_exists.mp (hcat i hsome)
      simp only [ShoppingCart.get_item_by_id, Inventory.get_catalog, hit]
      show CartOk inv
        ⟨if inCart - q = 0 then alDel (alSet c.cart_items i (inCart - q)) i
          else alSet c.cart_items i (inCart - q),
         c.total_price - it.price * (q : ℚ)⟩
      have hp : priceD inv.catalog i = it.price := by simp [priceD, hit]
      constructor
      · intro k hk
        by_cases hz : inCart - q = 0
        · rw [if_pos hz] at hk
          rcases isSome_of_alSet _ _ _ _ (isSome_of_alDel _ _ _ hk) with rfl | hk2
          · exact hsome
          · exact hkeys k hk2
        · rw [if_neg hz] at hk
          rcases isSome_of_alSet _ _ _ _ hk with rfl | hk2
          · exact hsome
          · exact hkeys k hk2
      · show c.total_price - it.price * (q : ℚ) = entrySum inv.catalog _
        by_cases hz : inCart - q = 0
        · rw [if_pos hz]
          rw [entrySum_alDel inv.catalog _ i (inCart - q) (alGet_alSet_self _ _ _),
            entrySum_alSet, htot, hcc, hp, hz]
          simp only [Option.getD_some]
          have hiq : inCart = q := by omega
          rw [hiq]
          push_cast
          ring
        · rw [if_neg hz]
          rw [entrySum_alSet, htot, hcc, hp]
          simp only [Option.getD_some]
          push_cast
          ring

/-! Behaviour of the checkout loop when every entry is coverable, and when
a later entry fails its stock check. -/

theorem checkoutLoop_ok (catalog : List (Nat × StoreItem)) (l : List (Nat × Int)) :
    ∀ (inv : Inventory) (acc : List (StoreItem × Int)),
      (l.map Prod.fst).Nodup →
      (∀ p ∈ l, (alGet catalog p.1).isSome = true ∧ 0 < p.2 ∧ p.2 ≤ inv.get_quantity p.1) →
      ∃ inv' res, checkoutLoop catalog l inv acc = (inv', Except.ok res) ∧
        (∀ p ∈ l, inv'.get_quantity p.1 = inv.get_quantity p.1 - p.2) ∧
        (∀ j, j ∉ l.map Prod.fst → inv'.get_quantity j = inv.get_quantity j) := by
  induction l with
  | nil =>
    intro inv acc _ _
    exact ⟨inv, acc, rfl, by simp, fun j _ => rfl⟩
  | cons hd rest ih =>
    obtain ⟨i, q⟩ := hd
    intro inv acc hnd hok
    obtain ⟨hcat, hq, hle⟩ := hok (i, q) (by simp)
    obtain ⟨it, hit⟩ := Option.isSome_iff_exists.mp hcat
    have hpres : (inv.items i).isSome = true := items_isSome_of_pos inv i q hq hle
    have hnd' : (i :: rest.map Prod.fst).Nodup := by simpa using hnd
    have hnotin : i ∉ rest.map Prod.fst := (List.nodup_cons.mp hnd').1
    have hnd2 : (rest.map Prod.fst).Nodup := (List.nodup_cons.mp hnd').2
    have hok2 : ∀ p ∈ rest, (alGet catalog p.1).isSome = true ∧ 0 < p.2 ∧
        p.2 ≤ (inv.update_quantity i (inv.get_quantity i - q)).get_quantity p.1 := by
      intro p hp
      obtain ⟨h1, h2, h3⟩ := hok p (List.mem_cons_of_mem _ hp)
      refine ⟨h1, h2, ?_⟩
      have hne : p.1 ≠ i := fun hEq => hnotin (hEq ▸ List.mem_map_of_mem Prod.fst hp)
      rw [get_quantity_update_ne inv i _ p.1 hne]
      exact h3
    obtain ⟨inv', res, heq, hdec, hkeep⟩ :=
      ih (inv.update_quantity i (inv.get_quantity i - q)) (acc ++ [(it, q)]) hnd2 hok2
    refine ⟨inv', res, ?_, ?_, ?_⟩
    · show checkoutLoop catalog ((i, q) :: rest) inv acc = (inv', Except.ok res)
      simp only [checkoutLoop, hit, if_neg (not_lt.mpr hle)]
      exact heq
    · intro p hp
      rcases List.mem_cons.mp hp with hEq | hmem
      · subst hEq
        show inv'.get_quantity i = inv.get_quantity i - q
        rw [hkeep i hnotin, get_quantity_update_self inv i _ hpres]
      · have hne : p.1 ≠ i := fun hEq => hnotin (hEq ▸ List.mem_map_of_mem Prod.fst hmem)
        rw [hdec p hmem, get_quantity_update_ne inv i _ p.1 hne]
    · intro j hj
      have hj1 : j ≠ i := fun hEq => hj (by simp [hEq])
      have hj2 : j ∉ rest.map Prod.fst := fun hm => hj (by simp [hm])
      rw [hkeep j hj2, get_quantity_update_ne inv i _ j hj1]

theorem checkoutLoop_err (catalog : List (Nat × StoreItem)) (l1 : List (Nat × Int)) :
    ∀ (inv : Inventory) (acc : List (StoreItem × Int)) (i : Nat) (q : Int)
      (l2 : List (Nat × Int)),
      ((l1 ++ (i, q) :: l2).map Prod.fst).Nodup →
      (∀ p ∈ l1, (alGet catalog p.1).isSome = true ∧ 0 < p.2 ∧ p.2 ≤ inv.get_quantity p.1) →
      (alGet catalog i).isSome = true →
      inv.get_quantity i < q →
      ∃ inv', checkoutLoop catalog (l1 ++ (i, q) :: l2) inv acc
          = (inv', Except.error (.insufficientStock i)) ∧
        (∀ p ∈ l1, inv'.get_quantity p.1 = inv.get_quantity p.1 - p.2) ∧
        (∀ j, j ∉ l1.map Prod.fst → inv'.get_quantity j = inv.get_quantity j) := by
  induction l1 with
  | nil =>
    intro inv acc i q l2 _ _ hcat hfail
    obtain ⟨it, hit⟩ := Option.isSome_iff_exists.mp hcat
    refine ⟨inv, ?_, by simp, fun j _ => rfl⟩
    simp only [List.nil_append, checkoutLoop, hit, if_pos hfail]
  | cons hd rest ih =>
    obtain ⟨i1, q1⟩ := hd
    intro inv acc i q l2 hnd h1 hcat hfail
    obtain ⟨hcat1, hq1, hle1⟩ := h1 (i1, q1) (by simp)
    obtain ⟨it1, hit1⟩ := Option.isSome_iff_exists.mp hcat1
    have hpres : (inv.items i1).isSome = true := items_isSome_of_pos inv i1 q1 hq1 hle1
    have hnd' : (i1 :: (rest ++ (i, q) :: l2).map Prod.fst).Nodup := by simpa using hnd
    have hni1 : i1 ∉ (rest ++ (i, q) :: l2).map Prod.fst := (List.nodup_cons.mp hnd').1
    have hndrest : ((rest ++ (i, q) :: l2).map Prod.fst).Nodup := (List.nodup_cons.mp hnd').2
    have hne_i : i ≠ i1 := by
      intro hEq
      apply hni1
      rw [← hEq]
      simp
    have h1' : ∀ p ∈ rest, (alGet catalog p.1).isSome = true ∧ 0 < p.2 ∧
        p.2 ≤ (inv.update_quantity i1 (inv.get_quantity i1 - q1)).get_quantity p.1 := by
      intro p hp
      obtain ⟨ha, hb, hc⟩ := h1 p (List.mem_cons_of_mem _ hp)
      refine ⟨ha, hb, ?_⟩
      have hne : p.1 ≠ i1 := by
        intro hEq
        apply hni1
        rw [← hEq]
        exact List.mem_map_of_mem Prod.fst (by simp [hp])
      rw [get_quantity_update_ne inv i1 _ p.1 hne]
      exact hc
    have hfail' :
        (inv.update_quantity i1 (inv.get_quantity i1 - q1)).get_quantity i < q := by
      rw [get_quantity_update_ne inv i1 _ i hne_i]
      exact hfail
    obtain ⟨inv', heq, hdec, hkeep⟩ :=
      ih (inv.update_quantity i1 (inv.get_quantity i1 - q1)) (acc ++ [(it1, q1)]) i q l2
        hndrest h1' hcat hfail'
    refine ⟨inv', ?_, ?_, ?_⟩
    · show checkoutLoop catalog ((i1, q1) :: (rest ++ (i, q) :: l2)) inv acc
        = (inv', Except.error (.insufficientStock i))
      simp only [checkoutLoop, hit1, if_neg (not_lt.mpr hle1)]
      exact heq
    · intro p hp
      rcases List.mem_cons.mp hp with hEq | hmem
      · subst hEq
        show inv'.get_quantity i1 = inv.get_quantity i1 - q1
        have hni1' : i1 ∉ rest.map Prod.fst := by
          intro hm
          apply hni1
          simp only [List.map_append, List.mem_append]
          exact Or.inl hm
        rw [hkeep i1 hni1', get_quantity_update_self inv i1 _ hpres]
      · have hne : p.1 ≠ i1 := by
          intro hEq
          apply hni1
          rw [← hEq]
          exact List.mem_map_of_mem Prod.fst (by simp [hmem])
        rw [hdec p hmem, get_quantity_update_ne inv i1 _ p.1 hne]
    · intro j hj
      have hj1 : j ≠ i1 := fun hEq => hj (by simp [hEq])
      have hj2 : j ∉ rest.map Prod.fst := fun hm => hj (by simp [hm])
      rw [hkeep j hj2, get_quantity_update_ne inv i1 _ j hj1]

/-! Agreement of the user order dictionary entry and the user object
history, preserved by every operation except a clear for that user. -/

theorem uod_agree_step (s : UODState) (u : String) (op : UODOp)
    (hop : op ≠ .clearOp u)
    (h : s.get_orders_for_user u = s.order_hist u) :
    (applyUODOp s op).get_orders_for_user u = (applyUODOp s op).order_hist u := by
  rw [UODState.get_orders_for_user] at h
  cases op with
  | updateOp o =>
    by_cases hu : u = o.username
    · subst hu
      simp only [applyUODOp, UODState.update, UODState.get_orders_for_user,
        alGet_alSet_self, Option.getD_some, if_pos rfl, ite_true, h]
    · simp only [applyUODOp, UODState.update, UODState.get_orders_for_user,
        alGet_alSet_ne _ _ _ _ hu, if_neg hu, h]
  | getOp _ => exact h
  | clearOp u' =>
    have hne : u ≠ u' := fun hEq => hop (by rw [hEq])
    simp only [applyUODOp, UODState.clear_user_orders, UODState.get_orders_for_user,
      alGet_alSet_ne _ _ _ _ hne, h]

theorem uod_agree_run (u : String) (ops : List UODOp) :
    ∀ s : UODState, UODOp.clearOp u ∉ ops →
      s.get_orders_for_user u = s.order_hist u →
      (ops.foldl applyUODOp s).get_orders_for_user u
        = (ops.foldl applyUODOp s).order_hist u := by
  induction ops with
  | nil => intro s _ h; exact h
  | cons op rest ih =>
    intro s hmem h
    have h1 : op ≠ .clearOp u := fun hEq => hmem (hEq ▸ List.mem_cons_self _ _)
    have h2 : UODOp.clearOp u ∉ rest := fun hm => hmem (List.mem_cons_of_mem _ hm)
    exact ih _ h2 (uod_agree_step s u op h1 h)

theorem cartOk_run (inv : Inventory)
    (hcat : ∀ k, (inv.items k).isSome = true → (alGet inv.catalog k).isSome = true)
    (ops : List CartOp) :
    ∀ c, CartOk inv c → CartOk inv (ops.foldl (applyCartOp inv) c) := by
  induction ops with
  | nil => intro c h; exact h
  | cons op rest ih =>
    intro c h
    cases op with
    | addOp i q => exact ih _ (cartOk_add inv c i q hcat h)
    | removeOp i q => exact ih _ (cartOk_remove inv c i q hcat h)

/-! Claim C1. -/

/-- C1 counterexample: with items 1 and 2 in the cart and stock 10 and 3,
checkout fails its stock validation on item 2 yet has already deducted
item 1, whose quantity drops from 10 to 8, so the failed checkout does
not leave the inventory unchanged. -/
theorem c1_checkout_failed_stock_counterexample :
    (checkout apiFailFix "alice").2 = Except.error (.insufficientStock 2) ∧
    apiFailFix.inventory.get_quantity 1 = 10 ∧
    (checkout apiFailFix "alice").1.inventory.get_quantity 1 = 8 ∧
    (checkout apiFailFix "alice").1.inventory.get_quantity 1
      ≠ apiFailFix.inventory.get_quantity 1 := by
  refine ⟨rfl, rfl, rfl, by decide⟩

/-- C1 amended: when checkout fails its stock validation at the first
short cart entry, the entries placed earlier in the cart have already
been deducted by their cart quantities (partial deduction), while the
failing item and every other id keep their quantities; the inventory is
left unchanged only when the failing entry is the first of the cart. The
cart itself and the user order dictionary are unchanged by the failure. -/
theorem c1_checkout_failed_stock_deduction (s : ApiState) (username : String)
    (l1 : List (Nat × Int)) (i : Nat) (q : Int) (l2 : List (Nat × Int))
    (hu : username ∈ s.user_db)
    (hcart : s.shopping_cart.cart_items = l1 ++ (i, q) :: l2)
    (hnd : ((l1 ++ (i, q) :: l2).map Prod.fst).Nodup)
    (h1 : ∀ p ∈ l1, (alGet s.inventory.catalog p.1).isSome = true ∧ 0 < p.2 ∧
      p.2 ≤ s.inventory.get_quantity p.1)
    (hi : (alGet s.inventory.catalog i).isSome = true)
    (hfail : s.inventory.get_quantity i < q) :
    (checkout s username).2 = Except.error (.insufficientStock i) ∧
    (∀ p ∈ l1, (checkout s username).1.inventory.get_quantity p.1
      = s.inventory.get_quantity p.1 - p.2) ∧
    (∀ j, j ∉ l1.map Prod.fst →
      (checkout s username).1.inventory.get_quantity j = s.inventory.get_quantity j) ∧
    (checkout s username).1.shopping_cart = s.shopping_cart ∧
    (checkout s username).1.uod = s.uod := by
  obtain ⟨inv', heq, hdec, hkeep⟩ :=
    checkoutLoop_err s.inventory.catalog l1 s.inventory [] i q l2 hnd h1 hi hfail
  have hemp : s.shopping_cart.cart_items.isEmpty = false := by
    rw [hcart]; cases l1 <;> rfl
  have hck : checkout s username
      = ({ s with inventory := inv' }, Except.error (.insufficientStock i)) := by
    unfold checkout
    rw [if_pos hu]
    simp [hemp, Inventory.get_catalog, hcart, heq]
  rw [hck]
  exact ⟨rfl, hdec, hkeep, rfl, rfl⟩

/-- C1 witness: the amended theorem instantiated on the concrete failing
checkout state. -/
theorem c1_checkout_failed_stock_deduction_witness :
    ("alice" ∈ apiFailFix.user_db) ∧
    apiFailFix.shopping_cart.cart_items = [(1, 2)] ++ (2, 5) :: [] ∧
    apiFailFix.inventory.get_quantity 2 < 5 ∧
    (checkout apiFailFix "alice").2 = Except.error (.insufficientStock 2) ∧
    (checkout apiFailFix "alice").1.inventory.get_quantity 1
      = apiFailFix.inventory.get_quantity 1 - 2 ∧
    (checkout apiFailFix "alice").1.inventory.get_quantity 2
      = apiFailFix.inventory.get_quantity 2 := by
  have h := c1_checkout_failed_stock_deduction apiFailFix "alice" [(1, 2)] 2 5 []
    (by decide) rfl (by decide) (by decide) (by decide) (by decide)
  exact ⟨by decide, rfl, by decide, h.1, h.2.1 (1, 2) (by decide), h.2.2.1 2 (by decide)⟩

/-! Claim C2. -/

/-- C2: for every sequence of add and remove operations on a fresh cart
over a fixed catalog and inventory in which every stocked item has a
catalog entry, the running cart total always equals the sum over the
current cart entries of catalog price times cart quantity. -/
theorem c2_cart_total_invariant (inv : Inventory) (ops : List CartOp)
    (hcat : ∀ k, (inv.items k).isSome = true → (alGet inv.catalog k).isSome = true) :
    (runCartOps inv ops).total_price
      = entrySum inv.catalog (runCartOps inv ops).cart_items := by
  have h0 : CartOk inv ⟨[], 0⟩ := by
    constructor
    · intro k hk
      simp [alGet] at hk
    · rfl
  exact (cartOk_run inv hcat ops ⟨[], 0⟩ h0).2

/-- C2 witness: the invariant instantiated on a concrete run mixing adds
and removes over the two item inventory. -/
theorem c2_cart_total_invariant_witness :
    (∀ k, (invTwoFix.items k).isSome = true → (alGet invTwoFix.catalog k).isSome = true) ∧
    (runCartOps invTwoFix
        [CartOp.addOp 1 2, CartOp.addOp 2 1, CartOp.removeOp 1 1]).total_price
      = entrySum invTwoFix.catalog
          (runCartOps invTwoFix
            [CartOp.addOp 1 2, CartOp.addOp 2 1, CartOp.removeOp 1 1]).cart_items := by
  have hc : ∀ k, (invTwoFix.items k).isSome = true
      → (alGet invTwoFix.catalog k).isSome = true := by
    intro k hk
    by_cases h1 : k = 1
    · subst h1; decide
    · by_cases h2 : k = 2
      · subst h2; decide
      · exfalso
        simp [invTwoFix, h1, h2] at hk
  exact ⟨hc, c2_cart_total_invariant invTwoFix _ hc⟩

/-! Claim C3. -/

/-- C3: a checkout for a registered user whose non-empty cart (distinct
item ids, positive quantities) is fully coverable by the stock succeeds:
the returned order carries the cart total, every cart entry is deducted
from the inventory by exactly its cart quantity, and the cart is left
empty with a zero total. -/
theorem c3_checkout_success (s : ApiState) (username : String)
    (hu : username ∈ s.user_db)
    (hne : s.shopping_cart.cart_items ≠ [])
    (hnd : (s.shopping_cart.cart_items.map Prod.fst).Nodup)
    (hok : ∀ p ∈ s.shopping_cart.cart_items,
      (alGet s.inventory.catalog p.1).isSome = true ∧ 0 < p.2 ∧
        p.2 ≤ s.inventory.get_quantity p.1) :
    (checkout s username).2.map Order.total_price
      = Except.ok s.shopping_cart.total_price ∧
    (∀ p ∈ s.shopping_cart.cart_items,
      (checkout s username).1.inventory.get_quantity p.1
        = s.inventory.get_quantity p.1 - p.2) ∧
    (checkout s username).1.shopping_cart.cart_items = [] ∧
    (checkout s username).1.shopping_cart.total_price = 0 := by
  obtain ⟨inv', res, heq, hdec, _⟩ :=
    checkoutLoop_ok s.inventory.catalog s.shopping_cart.cart_items s.inventory [] hnd hok
  have hemp : s.shopping_cart.cart_items.isEmpty = false := by
    cases hcc : s.shopping_cart.cart_items
    · exact absurd hcc hne
    · rfl
  have hck : checkout s username =
      ({ s with
          inventory := inv',
          shopping_cart := ⟨[], 0⟩,
          orders := s.orders ++ [⟨username, res, s.shopping_cart.total_price, "pending"⟩],
          uod := s.uod.update ⟨username, res, s.shopping_cart.total_price, "pending"⟩ },
        Except.ok ⟨username, res, s.shopping_cart.total_price, "pending"⟩) := by
    unfold checkout
    rw [if_pos hu]
    simp [hemp, Inventory.get_catalog, heq]
  rw [hck]
  exact ⟨rfl, fun p hp => hdec p hp, rfl, rfl⟩

/-- C3 witness: the success theorem instantiated on the concrete coverable
checkout state. -/
theorem c3_checkout_success_witness :
    ("alice" ∈ apiOkFix.user_db) ∧
    apiOkFix.shopping_cart.cart_items ≠ [] ∧
    (apiOkFix.shopping_cart.cart_items.map Prod.fst).Nodup ∧
    (checkout apiOkFix "alice").2.map Order.total_price
      = Except.ok apiOkFix.shopping_cart.total_price ∧
    (checkout apiOkFix "alice").1.inventory.get_quantity 1
      = apiOkFix.inventory.get_quantity 1 - 2 ∧
    (checkout apiOkFix "alice").1.inventory.get_quantity 2
      = apiOkFix.inventory.get_quantity 2 - 1 ∧
    (checkout apiOkFix "alice").1.shopping_cart.cart_items = [] ∧
    (checkout apiOkFix "alice").1.shopping_cart.total_price = 0 := by
  have h := c3_checkout_success apiOkFix "alice" (by decide) (by decide) (by decide) (by decide)
  exact ⟨by decide, by decide, by decide, h.1, h.2.1 (1, 2) (by decide),
    h.2.1 (2, 1) (by decide), h.2.2.1, h.2.2.2⟩

/-! Claim C4. -/

/-- C4 counterexample: item 1 is stocked with plenty of quantity but has
no catalog entry; the claimed success condition (stocked, and requested
plus carted quantity within the stock) holds, yet add_furniture raises
KeyError, leaving the cart entry incremented while the total is
unchanged, so the call neither succeeds nor leaves the cart unchanged. -/
theorem c4_add_iff_counterexample :
    ((invNoCatFix.items 1).isSome = true ∧
      (2 : Int) + (alGet cartEmptyFix.cart_items 1).getD 0
        ≤ invNoCatFix.get_quantity 1) ∧
    (cartEmptyFix.add_furniture invNoCatFix 1 2).exn = some (.keyError 1) ∧
    alGet (cartEmptyFix.add_furniture invNoCatFix 1 2).cart.cart_items 1 = some 2 ∧
    (cartEmptyFix.add_furniture invNoCatFix 1 2).cart.total_price
      = cartEmptyFix.total_price := by
  refine ⟨⟨rfl, by decide⟩, rfl, rfl, rfl⟩

/-- C4 amended: provided the item id has a catalog entry whenever it is
stocked, add succeeds exactly when the item is in the inventory quantity
map and the requested plus already-carted quantity does not exceed the
available stock, incrementing the cart entry and increasing the total by
catalog price times quantity; otherwise the cart is returned unchanged
(the case of a stocked item missing from the catalog instead raises, with
a partial mutation, as stated by the separate KeyError claim). -/
theorem c4_add_iff_amended (inv : Inventory) (c : ShoppingCart) (i : Nat) (q : Int)
    (hcat : (inv.items i).isSome = true → (alGet inv.catalog i).isSome = true) :
    c.add_furniture inv i q =
      if (inv.items i).isSome = true
          ∧ q + (alGet c.cart_items i).getD 0 ≤ inv.get_quantity i
      then ⟨⟨alSet c.cart_items i ((alGet c.cart_items i).getD 0 + q),
              c.total_price + priceD inv.catalog i * (q : ℚ)⟩, none⟩
      else ⟨c, none⟩ := by
  rw [add_furniture_eq]
  by_cases hcond : (inv.items i).isSome = true
      ∧ q + (alGet c.cart_items i).getD 0 ≤ inv.get_quantity i
  · rw [if_pos hcond, if_pos hcond]
    obtain ⟨it, hit⟩ := Option.isSome_iff_exists.mp (hcat hcond.1)
    simp [hit, priceD]
  · rw [if_neg hcond, if_neg hcond]

/-- C4 witness: the amended equivalence instantiated on a concrete add
that lands in the success branch. -/
theorem c4_add_iff_amended_witness :
    ((invTwoFix.items 1).isSome = true → (alGet invTwoFix.catalog 1).isSome = true) ∧
    cartEmptyFix.add_furniture invTwoFix 1 2 =
      (if (invTwoFix.items 1).isSome = true
          ∧ (2 : Int) + (alGet cartEmptyFix.cart_items 1).getD 0
              ≤ invTwoFix.get_quantity 1
       then ⟨⟨alSet cartEmptyFix.cart_items 1 ((alGet cartEmptyFix.cart_items 1).getD 0 + 2),
               cartEmptyFix.total_price + priceD invTwoFix.catalog 1 * ((2 : Int) : ℚ)⟩, none⟩
       else ⟨cartEmptyFix, none⟩) :=
  ⟨fun _ => by decide, c4_add_iff_amended invTwoFix cartEmptyFix 1 2 (fun _ => by decide)⟩

/-! Claim C5. -/

/-- C5 counterexample: after one update for alice followed by a
clear_user_orders for alice, the dictionary list of alice is empty while
the order history of the alice user object still holds the order, so the
two diverge in length. -/
theorem c5_uod_agree_counterexample :
    ((runUODOps [UODOp.updateOp orderFixA, UODOp.clearOp "alice"]).get_orders_for_user
        "alice").length
      ≠ ((runUODOps [UODOp.updateOp orderFixA, UODOp.clearOp "alice"]).order_hist
        "alice").length := by
  decide

/-- C5 amended: for every user and every operation sequence containing no
clear_user_orders for that user, the dictionary list under the username
and the user object history remain identical (in particular equal in
length and content); clear_user_orders empties only the dictionary entry
and leaves the user object history in place, after which they diverge. -/
theorem c5_uod_agree (u : String) (ops : List UODOp)
    (h : UODOp.clearOp u ∉ ops) :
    (runUODOps ops).get_orders_for_user u = (runUODOps ops).order_hist u :=
  uod_agree_run u ops uodInit h rfl

/-- C5 witness: the agreement instantiated on a run with two updates for
alice and a clear for another user. -/
theorem c5_uod_agree_witness :
    (UODOp.clearOp "alice"
      ∉ [UODOp.updateOp orderFixA, UODOp.clearOp "bob", UODOp.updateOp orderFixB]) ∧
    (runUODOps [UODOp.updateOp orderFixA, UODOp.clearOp "bob",
        UODOp.updateOp orderFixB]).get_orders_for_user "alice"
      = (runUODOps [UODOp.updateOp orderFixA, UODOp.clearOp "bob",
          UODOp.updateOp orderFixB]).order_hist "alice" :=
  ⟨by decide, c5_uod_agree "alice" _ (by decide)⟩

/-! Claim C6. -/

/-- C6: checkout invoked for a registered user with an empty cart fails
with the empty cart error and leaves every inventory quantity and the
user order dictionary unchanged. -/
theorem c6_checkout_empty_cart (s : ApiState) (username : String)
    (hu : username ∈ s.user_db) (hc : s.shopping_cart.cart_items = []) :
    (checkout s username).2 = Except.error .emptyCart ∧
    (∀ i, (checkout s username).1.inventory.get_quantity i
      = s.inventory.get_quantity i) ∧
    (checkout s username).1.uod.user_orders = s.uod.user_orders := by
  have heq : checkout s username = (s, Except.error .emptyCart) := by
    unfold checkout
    rw [if_pos hu]
    simp [hc]
  rw [heq]
  exact ⟨rfl, fun i => rfl, rfl⟩

/-- C6 witness: the empty cart failure instantiated on the concrete state
with a registered user and a fresh cart. -/
theorem c6_checkout_empty_cart_witness :
    ("alice" ∈ apiEmptyFix.user_db) ∧
    apiEmptyFix.shopping_cart.cart_items = [] ∧
    (checkout apiEmptyFix "alice").2 = Except.error .emptyCart ∧
    (checkout apiEmptyFix "alice").1.inventory.get_quantity 1
      = apiEmptyFix.inventory.get_quantity 1 ∧
    (checkout apiEmptyFix "alice").1.uod.user_orders = apiEmptyFix.uod.user_orders := by
  have h := c6_checkout_empty_cart apiEmptyFix "alice" (by decide) rfl
  exact ⟨by decide, rfl, h.1, h.2.1 1, h.2.2⟩

/-! Claim C7. -/

/-- C7 counterexample: at percentage 150 the claim asserts that an
InvalidDiscountError is signalled to the caller; the call instead returns
normally with no exception and the cart unchanged (the source only prints
a message), refuting the signalling part. -/
theorem c7_apply_discount_counterexample :
    (cartPricedFix.apply_discount 150).exn = none ∧
    (cartPricedFix.apply_discount 150).cart = cartPricedFix := by
  decide

/-- C7 amended: for a percentage outside (0, 100] the cart is returned
unchanged and no error is raised towards the caller (the rejection is a
silent print); for a percentage inside (0, 100] the call returns normally
with the same entries and the total scaled by (1 - p/100). -/
theorem c7_apply_discount_amended (c : ShoppingCart) (p : ℚ) :
    ((p ≤ 0 ∨ 100 < p) → c.apply_discount p = ⟨c, none⟩) ∧
    (0 < p → p ≤ 100 →
      c.apply_discount p = ⟨⟨c.cart_items, c.total_price * (1 - p / 100)⟩, none⟩) := by
  constructor
  · intro h
    simp only [ShoppingCart.apply_discount, if_pos h]
  · intro h1 h2
    have hn : ¬ (p ≤ 0 ∨ 100 < p) := by push_neg; exact ⟨h1, h2⟩
    simp only [ShoppingCart.apply_discount, if_neg hn]
    have harith : c.total_price - p / 100 * c.total_price
        = c.total_price * (1 - p / 100) := by ring
    rw [harith]

/-- C7 witness: both branches of the amended theorem instantiated on the
concrete cart, at 150 and at 25 percent. -/
theorem c7_apply_discount_amended_witness :
    ((150 : ℚ) ≤ 0 ∨ (100 : ℚ) < 150) ∧
    cartPricedFix.apply_discount 150 = ⟨cartPricedFix, none⟩ ∧
    (0 : ℚ) < 25 ∧ (25 : ℚ) ≤ 100 ∧
    cartPricedFix.apply_discount 25 =
      ⟨⟨cartPricedFix.cart_items, cartPricedFix.total_price * (1 - 25 / 100)⟩, none⟩ := by
  refine ⟨by norm_num, (c7_apply_discount_amended cartPricedFix 150).1 (by norm_num),
    by norm_num, by norm_num,
    (c7_apply_discount_amended cartPricedFix 25).2 (by norm_num) (by norm_num)⟩

/-! Claim C8. -/

/-- C8 counterexample: on an id absent from the inventory the claimed
absolute overwrite does not happen; update_quantity is a no-op there and
get_quantity still returns 0 instead of the written 5. -/
theorem c8_update_quantity_counterexample :
    (invEmptyFix.update_quantity 1 5).get_quantity 1 = 0 ∧
    (invEmptyFix.update_quantity 1 5).get_quantity 1 ≠ 5 := by
  decide

/-- C8 amended: for an item id already present in the inventory map, any
integer quantity, negative values included, is written verbatim, and
get_quantity afterwards returns exactly that quantity; on an absent id
the write is a silent no-op. -/
theorem c8_update_quantity_present (inv : Inventory) (item_id : Nat) (quantity : Int)
    (h : (inv.items item_id).isSome = true) :
    (inv.update_quantity item_id quantity).get_quantity item_id = quantity :=
  get_quantity_update_self inv item_id quantity h

/-- C8 witness: the amended overwrite instantiated on a stocked id with a
negative quantity. -/
theorem c8_update_quantity_present_witness :
    ((invTwoFix.items 1).isSome = true) ∧
    (invTwoFix.update_quantity 1 (-3)).get_quantity 1 = -3 :=
  ⟨by decide, c8_update_quantity_present invTwoFix 1 (-3) (by decide)⟩

/-! Claim C9. -/

theorem keeps_eq_amended (inv : Inventory) (name category : Option String)
    (min_price max_price : Option ℚ) (item : StoreItem) :
    Inventory.keepsItem inv name category min_price max_price item
      = matchesAmended inv name category min_price max_price item := by
  unfold Inventory.keepsItem matchesAmended
  congr 1
  · congr 1
    · congr 1
      · congr 1
        · cases inv.items item.item_id <;> rfl
        · cases name with
          | none => rfl
          | some s => cases hs : s.isEmpty <;> simp [truthyStr, hs]
      · cases category with
        | none => rfl
        | some s => cases hs : s.isEmpty <;> simp [truthyStr, hs]
    · cases min_price with
      | none => rfl
      | some p =>
        by_cases hp : p = 0
        · simp [truthyRat, hp]
        · by_cases hlt : item.price < p
          · simp [truthyRat, hp, hlt, not_le.mpr hlt]
          · simp [truthyRat, hp, hlt, not_lt.mp hlt]
  · cases max_price with
    | none => rfl
    | some p =>
      by_cases hp : p = 0
      · simp [truthyRat, hp]
      · by_cases hlt : p < item.price
        · simp [truthyRat, hp, hlt, not_le.mpr hlt]
        · simp [truthyRat, hp, hlt, not_lt.mp hlt]

/-- C9 counterexample: with the empty string given as the category, the
source skips the category filter (empty strings are falsy) and returns
the stocked table, while the claim filter demands a subtype whose name
equals the empty string and returns nothing, so the two differ. -/
theorem c9_search_counterexample :
    invSearchFix.search_items none (some "") none none
      ≠ searchClaim invSearchFix none (some "") none none := by
  decide

/-- C9 amended: search returns exactly the stocked catalog items passing
the name, category and price filters, where each filter applies only when
its argument is truthy in the Python sense, so a None or empty string
name or category and a None or zero price bound impose no constraint. -/
theorem c9_search_amended (inv : Inventory) (name category : Option String)
    (min_price max_price : Option ℚ) :
    inv.search_items name category min_price max_price
      = searchAmended inv name category min_price max_price := by
  unfold Inventory.search_items searchAmended
  exact List.filter_congr
    (fun item _ => keeps_eq_amended inv name category min_price max_price item)

/-! Claim C10. -/

/-- C10: adding an item that is stocked in the inventory but missing from
the catalog, with enough stock for the request, raises KeyError from the
catalog lookup after the cart entry has already been incremented and
before the total update, so on this error the cart entry is mutated while
the total is unchanged. -/
theorem c10_add_missing_catalog (inv : Inventory) (c : ShoppingCart) (i : Nat) (q : Int)
    (hinv : (inv.items i).isSome = true)
    (hcat : alGet inv.catalog i = none)
    (hstock : q + (alGet c.cart_items i).getD 0 ≤ inv.get_quantity i) :
    c.add_furniture inv i q =
      ⟨{ c with cart_items := alSet c.cart_items i ((alGet c.cart_items i).getD 0 + q) },
        some (.keyError i)⟩ ∧
    alGet (c.add_furniture inv i q).cart.cart_items i
      = some ((alGet c.cart_items i).getD 0 + q) ∧
    (c.add_furniture inv i q).cart.total_price = c.total_price := by
  have heq : c.add_furniture inv i q =
      ⟨{ c with cart_items := alSet c.cart_items i ((alGet c.cart_items i).getD 0 + q) },
        some (.keyError i)⟩ := by
    rw [add_furniture_eq, if_pos ⟨hinv, hstock⟩]
    simp only [hcat]
  refine ⟨heq, ?_, ?_⟩
  · rw [heq]
    exact alGet_alSet_self _ _ _
  · rw [heq]

/-- C10 witness: the KeyError behaviour instantiated on the catalog-less
inventory with a cart already holding two units of the item. -/
theorem c10_add_missing_catalog_witness :
    ((invNoCatFix.items 1).isSome = true ∧ alGet invNoCatFix.catalog 1 = none ∧
      (3 : Int) + (alGet cartPricedFix.cart_items 1).getD 0
        ≤ invNoCatFix.get_quantity 1) ∧
    (cartPricedFix.add_furniture invNoCatFix 1 3).exn = some (.keyError 1) ∧
    alGet (cartPricedFix.add_furniture invNoCatFix 1 3).cart.cart_items 1 = some 5 ∧
    (cartPricedFix.add_furniture invNoCatFix 1 3).cart.total_price
      = cartPricedFix.total_price := by
  have h := c10_add_missing_catalog invNoCatFix cartPricedFix 1 3
    (by decide) (by decide) (by decide)
  refine ⟨⟨by decide, by decide, by decide⟩, ?_, h.2.1.trans (by decide), h.2.2⟩
  rw [h.1]
